import Mathlib

/-!
Shallow embedding of the voice-session core of the AI Local Language Tutor
repository: `src/stateManager.js` (class `StateManager`) and the `VoiceEngine`
class of `src/lessonEngine.js`.

Modelling conventions:
* The four session phases are the closed enumeration `Phase`; the JS code
  stores them as strings, and transition targets arrive as arbitrary strings,
  so targets are modelled as `String` and `phaseOfString` models the
  `StateManager.STATES[newState]` lookup.  (The JS lookup would also find
  inherited `Object.prototype` keys such as `"constructor"`; for those the
  code still fails — at the `includes` check instead — with the same
  observable outcome: `false` returned, state untouched, one error log.)
* Listeners are JS function references; we model a reference as a `Nat` and
  a heap `Env` assigning each reference its behaviour: `none` means the
  callback returns normally, `some msg` means it throws an error whose
  `.message` is `msg` (caught by `notifyListeners`).
* Side effects (console logging via `this.log`, listener invocations,
  capability calls, outbound callbacks) are reified as action lists.  The
  console line produced by `log` additionally carries a locale-formatted
  wall-clock time-of-day string (`toLocaleTimeString`), which is I/O at the
  console boundary and not part of the model; it is not a sequence number
  (it is neither injective nor monotone across a session).
-/

namespace Tutor

/-- The four session phases (`StateManager.STATES`). -/
inductive Phase where
  | IDLE
  | LISTENING
  | PROCESSING
  | SPEAKING
deriving DecidableEq, Repr

/-- The string form of a phase (the values of `StateManager.STATES`). -/
def Phase.toStr : Phase → String
  | .IDLE => "IDLE"
  | .LISTENING => "LISTENING"
  | .PROCESSING => "PROCESSING"
  | .SPEAKING => "SPEAKING"

/-- Models the `StateManager.STATES[newState]` lookup: a requested target
string resolves to a phase exactly when it is one of the four own keys. -/
def phaseOfString : String → Option Phase
  | "IDLE" => some .IDLE
  | "LISTENING" => some .LISTENING
  | "PROCESSING" => some .PROCESSING
  | "SPEAKING" => some .SPEAKING
  | _ => none

/-- `StateManager.TRANSITIONS`: for each current phase, the list of target
state strings directly reachable from it. -/
def TRANSITIONS : Phase → List String
  | .IDLE => ["LISTENING"]
  | .LISTENING => ["PROCESSING", "IDLE"]
  | .PROCESSING => ["SPEAKING", "IDLE"]
  | .SPEAKING => ["IDLE"]

/-- The mutable fields of a `StateManager` instance that the claims are
about: the current phase and the registered listener references.
(`debugMode` is `true` for the session and only gates logging.) -/
structure SMState where
  currentState : Phase
  listeners : List Nat
deriving DecidableEq, Repr

/-- Behaviour heap for listener references: `env cb prev next = none` means
callback `cb` returns normally on `(prev, next)`; `some msg` means it throws
an error with message `msg`. -/
def Env : Type := Nat → Phase → Phase → Option String

/-- Observable actions of the state manager: console log lines
(`level`, `message`) and listener invocations with
`(previousState, newState)`. -/
inductive Action where
  | log (level : String) (message : String)
  | invoke (cb : Nat) (previousState newState : Phase)
deriving DecidableEq, Repr

/-- Is this action a listener invocation? -/
def Action.isInvoke : Action → Bool
  | .invoke _ _ _ => true
  | _ => false

/-- The listener invocations of an action trace, in order. -/
def invokesOf (l : List Action) : List Action := l.filter Action.isInvoke

/-- `StateManager.notifyListeners`: iterate over the listener list in order;
invoke each callback with `(previousState, newState)`; a thrown error is
caught and logged, and iteration continues. -/
def notifyListeners (env : Env) (listeners : List Nat)
    (previousState newState : Phase) : List Action :=
  listeners.flatMap fun cb =>
    Action.invoke cb previousState newState ::
      match env cb previousState newState with
      | some msg => [Action.log "error" ("Listener error: " ++ msg)]
      | none => []

/-- Result of `StateManager.transition`: the returned boolean, the state
after the call, and the emitted actions. -/
structure TransitionResult where
  success : Bool
  state : SMState
  actions : List Action
deriving DecidableEq, Repr

/-- `StateManager.transition(newState)`: reject unknown states; reject
targets not in the transition-table entry for the current state; otherwise
commit the new state, log, and notify listeners, returning `true`.
(The source checks `!STATES[newState]` first and `includes` second; the
match below reorders the two rejections only for strings that fail both,
where the observable outcome — `false`, state untouched, one error log —
is the same.) -/
def transition (env : Env) (s : SMState) (newState : String) : TransitionResult :=
  match phaseOfString newState with
  | none =>
      ⟨false, s, [.log "error" ("ERROR: Invalid state \"" ++ newState ++ "\"")]⟩
  | some p =>
      if (TRANSITIONS s.currentState).contains newState then
        ⟨true, { currentState := p, listeners := s.listeners },
          .log "info" ("State: " ++ s.currentState.toStr ++ " → " ++ newState) ::
            notifyListeners env s.listeners s.currentState p⟩
      else
        ⟨false, s,
          [.log "error" ("ERROR: Cannot transition from " ++ s.currentState.toStr
            ++ " to " ++ newState)]⟩

/-- Result of `StateManager.forceTransition` (which returns no value): the
state after the call and the emitted actions. -/
structure ForceResult where
  state : SMState
  actions : List Action
deriving DecidableEq, Repr

/-- `StateManager.forceTransition(newState)`: reject unknown states;
otherwise set the phase unconditionally (bypassing the table), log with
level `warn` and a `FORCED` prefix, and notify listeners. -/
def forceTransition (env : Env) (s : SMState) (newState : String) : ForceResult :=
  match phaseOfString newState with
  | none =>
      ⟨s, [.log "error"
        ("ERROR: Cannot force transition to invalid state \"" ++ newState ++ "\"")]⟩
  | some p =>
      ⟨{ currentState := p, listeners := s.listeners },
        .log "warn" ("FORCED State: " ++ s.currentState.toStr ++ " → " ++ newState) ::
          notifyListeners env s.listeners s.currentState p⟩

/-- `StateManager.reset()`: `forceTransition(STATES.IDLE)`. -/
def reset (env : Env) (s : SMState) : ForceResult :=
  forceTransition env s "IDLE"

/-- `StateManager.addListener(callback)`: push onto the listener list.
(The `typeof callback === 'function'` guard always holds for a function
reference, which is all `Env` assigns behaviour to.) -/
def addListener (s : SMState) (cb : Nat) : SMState :=
  { s with listeners := s.listeners ++ [cb] }

/-- `StateManager.removeListener(callback)`:
`this.listeners = this.listeners.filter(cb => cb !== callback)`. -/
def removeListener (s : SMState) (cb : Nat) : SMState :=
  { s with listeners := s.listeners.filter (fun c => c != cb) }

/-- A concrete behaviour heap where every callback returns normally. -/
def env0 : Env := fun _ _ _ => none

/-!
## VoiceEngine (`src/lessonEngine.js`, class `VoiceEngine`)

The engine holds the state-manager reference, the two capability handles
(recognition and synthesis) and the duplicate-transcript filter state.
`captureActive` models "the recognition session is capturing audio" and
`renderActive` models `this.synthesis.speaking`; `endPending` records that
the recognition session will still deliver its `onend` event.  Recognition
confidence is an opaque score the engine only forwards, modelled as `Nat`
(its only other use, `toFixed(2)` inside a log line, is not modelled).
-/

/-- The fields of a `VoiceEngine` instance (plus the capability-side
activity bits) that the claims are about. -/
structure VEState where
  sm : SMState
  recognitionAvailable : Bool
  synthesisAvailable : Bool
  lastTranscript : String
  lastTranscriptTime : Nat
  recognitionLang : String
  synthesisLang : String
  hasTranscriptCallback : Bool
  hasErrorCallback : Bool
  captureActive : Bool
  renderActive : Bool
  endPending : Bool
deriving DecidableEq, Repr

/-- Observable actions of the voice engine: state-manager actions, its own
log lines, capability calls, and outbound callbacks. -/
inductive VAction where
  | sm (a : Action)
  | vlog (level message : String)
  | startRecognition
  | stopRecognition
  | cancelSynthesis
  | startSynthesis (text lang : String)
  | transcriptCallback (text : String) (confidence : Nat)
  | errorCallback (message : String)
deriving DecidableEq, Repr

/-- Is this action the start of speech synthesis? -/
def VAction.isStartSynth : VAction → Bool
  | .startSynthesis _ _ => true
  | _ => false

/-- Is this action the start of speech recognition? -/
def VAction.isStartRec : VAction → Bool
  | .startRecognition => true
  | _ => false

/-- Is this action the stop call on speech recognition? -/
def VAction.isStopRec : VAction → Bool
  | .stopRecognition => true
  | _ => false

/-- Is this action an invocation of the transcript callback? -/
def VAction.isTranscriptCb : VAction → Bool
  | .transcriptCallback _ _ => true
  | _ => false

/-- Is this action an invocation of the error callback? -/
def VAction.isErrorCb : VAction → Bool
  | .errorCallback _ => true
  | _ => false

/-- Is this action a state-manager listener invocation? -/
def VAction.isSmInvoke : VAction → Bool
  | .sm a => a.isInvoke
  | _ => false

/-- Scanning left to right: `true` iff a `stopRecognition` occurs before any
`startSynthesis` (or no `startSynthesis` occurs at all). -/
def stopBeforeStart : List VAction → Bool
  | [] => true
  | a :: rest =>
      if a.isStopRec then true
      else if a.isStartSynth then false
      else stopBeforeStart rest

/-- A handler's outcome: the state after the call and the emitted actions. -/
structure VEStep where
  state : VEState
  actions : List VAction
deriving DecidableEq, Repr

/-- `recognition.onend`: log; if still `LISTENING` (no speech detected or a
manual stop), request the `LISTENING → IDLE` transition. -/
def recognitionOnEnd (env : Env) (s : VEState) : VEStep :=
  if s.sm.currentState = Phase.LISTENING then
    let r := transition env s.sm "IDLE"
    ⟨{ s with sm := r.state }, .vlog "info" "Recognition ended" :: r.actions.map .sm⟩
  else
    ⟨s, [.vlog "info" "Recognition ended"]⟩

/-- Models JS `String.prototype.trim`: strip leading and trailing
whitespace.  (Written with structural recursion so that it evaluates by
reduction; Lean's own `String.trim` is equivalent but defined by
well-founded recursion.) -/
def jsTrim (s : String) : String :=
  ⟨((s.data.dropWhile Char.isWhitespace).reverse.dropWhile
      Char.isWhitespace).reverse⟩

/-- `recognition.onresult`: trim the transcript; drop it as a duplicate if
its text equals the last stored transcript and it arrived less than 2000 ms
after it; otherwise store it, and — only if still `LISTENING` — request the
`LISTENING → PROCESSING` transition and deliver the transcript callback.
(`Date.now()` is non-decreasing within a session, so the JS subtraction
`now - lastTranscriptTime` agrees with truncated `Nat` subtraction.) -/
def recognitionOnResult (env : Env) (s : VEState) (rawTranscript : String)
    (confidence : Nat) (now : Nat) : VEStep :=
  let transcript := jsTrim rawTranscript
  let logA := VAction.vlog "info" ("Transcript: \"" ++ transcript ++ "\"")
  if transcript = s.lastTranscript ∧ now - s.lastTranscriptTime < 2000 then
    ⟨s, [logA, .vlog "warn" "Duplicate transcript ignored"]⟩
  else
    let s1 := { s with lastTranscript := transcript, lastTranscriptTime := now }
    if s1.sm.currentState = Phase.LISTENING then
      let r := transition env s1.sm "PROCESSING"
      ⟨{ s1 with sm := r.state },
        logA :: r.actions.map .sm ++
          (if s1.hasTranscriptCallback then
            [.transcriptCallback transcript confidence] else [])⟩
    else
      ⟨s1, [logA]⟩

/-- `recognition.onerror`: log; classify the error — `no-speech` logs only,
`audio-capture` and `not-allowed` additionally invoke the error callback
with their message, anything else falls through — then unconditionally
`this.stateManager.reset()`. -/
def recognitionOnError (env : Env) (s : VEState) (error : String) : VEStep :=
  let caseActs : List VAction :=
    if error = "no-speech" then
      [.vlog "warn" "No speech detected"]
    else if error = "audio-capture" then
      .vlog "error" "No microphone found" ::
        (if s.hasErrorCallback then
          [.errorCallback "No microphone detected. Please check your device."] else [])
    else if error = "not-allowed" then
      .vlog "error" "Microphone permission denied" ::
        (if s.hasErrorCallback then
          [.errorCallback "Microphone access denied. Please allow microphone access."] else [])
    else []
  let f := reset env s.sm
  ⟨{ s with sm := f.state },
    .vlog "error" ("Recognition error: " ++ error) :: caseActs ++ f.actions.map .sm⟩

/-- Result of `VoiceEngine.startListening`: the returned boolean, the state
after the call, and the emitted actions. -/
structure StartResult where
  success : Bool
  state : VEState
  actions : List VAction
deriving DecidableEq, Repr

/-- `VoiceEngine.startListening()`: fail if not `IDLE`; fail (and surface an
error callback) if recognition is unavailable; otherwise request
`IDLE → LISTENING` and start recognition.  `recognition.start()` throws if
the session is already active; the catch block logs, resets the state
machine and returns `false`. -/
def startListening (env : Env) (s : VEState) : StartResult :=
  if s.sm.currentState ≠ Phase.IDLE then
    ⟨false, s, [.vlog "warn" "Cannot start listening - not in IDLE state"]⟩
  else if s.recognitionAvailable = false then
    ⟨false, s, .vlog "error" "Speech Recognition not available" ::
      (if s.hasErrorCallback then
        [.errorCallback "Speech recognition is not supported in your browser."] else [])⟩
  else
    let r := transition env s.sm "LISTENING"
    if r.success = false then
      ⟨false, { s with sm := r.state }, r.actions.map .sm⟩
    else if s.captureActive then
      let f := reset env r.state
      ⟨false, { s with sm := f.state },
        r.actions.map .sm ++
          .vlog "error" "Failed to start recognition: recognition has already started" ::
            f.actions.map .sm⟩
    else
      ⟨true, { s with sm := r.state, captureActive := true, endPending := true },
        r.actions.map .sm ++
          [.startRecognition,
            .vlog "info" ("Started listening in " ++ s.recognitionLang)]⟩

/-- `VoiceEngine.stopListening()`: if the recognition handle exists and the
phase is `LISTENING`, call `recognition.stop()` (which ends audio capture;
the session's `onend` event then drives the phase change). -/
def stopListening (s : VEState) : VEStep :=
  if s.recognitionAvailable = true ∧ s.sm.currentState = Phase.LISTENING then
    ⟨{ s with captureActive := false },
      [.stopRecognition, .vlog "info" "Stopped listening (manual)"]⟩
  else
    ⟨s, []⟩

/-- The synchronous outcome of `VoiceEngine.speak`: immediate rejection with
the given error message, or the utterance was handed to the synthesizer. -/
inductive SpeakOutcome where
  | rejected (msg : String)
  | started
deriving DecidableEq, Repr

/-- Result of `VoiceEngine.speak`: its outcome, the state after the
synchronous part of the call, and the emitted actions. -/
structure SpeakResult where
  outcome : SpeakOutcome
  state : VEState
  actions : List VAction
deriving DecidableEq, Repr

/-- `VoiceEngine.speak(text, lang)`, synchronous part: reject unless
`PROCESSING`; reject if synthesis is unavailable; cancel any ongoing
synthesis; stop recognition (`recognition.stop()` quiesces audio capture;
a throw from an already-stopped handle is swallowed); request
`PROCESSING → SPEAKING`, rejecting without starting synthesis if it fails;
finally hand the utterance (rate 0.9, pitch 1.0, volume 1.0 — constants not
modelled) to the synthesizer with `lang || this.synthesisLang`. -/
def speak (env : Env) (s : VEState) (text : String) (lang : Option String) :
    SpeakResult :=
  if s.sm.currentState ≠ Phase.PROCESSING then
    ⟨.rejected "Invalid state for speaking", s,
      [.vlog "warn" "Cannot speak - not in PROCESSING state"]⟩
  else if s.synthesisAvailable = false then
    ⟨.rejected "Speech synthesis not available", s,
      [.vlog "error" "Speech Synthesis not available"]⟩
  else
    let cancelActs : List VAction :=
      if s.renderActive then [.cancelSynthesis, .vlog "info" "Cancelled previous speech"]
      else []
    let s1 := { s with renderActive := false }
    let stopActs : List VAction :=
      if s.recognitionAvailable then [.stopRecognition] else []
    let s2 := if s.recognitionAvailable then { s1 with captureActive := false } else s1
    let r := transition env s2.sm "SPEAKING"
    if r.success = false then
      ⟨.rejected "Failed to transition to SPEAKING state", { s2 with sm := r.state },
        cancelActs ++ stopActs ++ r.actions.map .sm⟩
    else
      ⟨.started, { s2 with sm := r.state, renderActive := true },
        cancelActs ++ stopActs ++ r.actions.map .sm ++
          [.startSynthesis text (lang.getD s.synthesisLang)]⟩

/-- `utterance.onend`: log, request `SPEAKING → IDLE`, resolve the caller's
promise (resolution itself is not an observable action of this model). -/
def synthOnEnd (env : Env) (s : VEState) : VEStep :=
  let r := transition env s.sm "IDLE"
  ⟨{ s with sm := r.state }, .vlog "info" "Finished speaking" :: r.actions.map .sm⟩

/-- `utterance.onerror`: log, `this.stateManager.reset()`, reject the
caller's promise with the event's error. -/
def synthOnError (env : Env) (s : VEState) (error : String) : VEStep :=
  let f := reset env s.sm
  ⟨{ s with sm := f.state },
    .vlog "error" ("Speech error: " ++ error) :: f.actions.map .sm⟩

/-- `VoiceEngine.cancelSpeech()`: if synthesis is speaking, cancel it; the
cancelled utterance's own end/error event completes the phase change. -/
def cancelSpeech (s : VEState) : VEStep :=
  if s.renderActive then ⟨s, [.cancelSynthesis, .vlog "info" "Speech cancelled"]⟩
  else ⟨s, []⟩

/-- A freshly constructed engine: `IDLE`, empty duplicate-filter state,
"es-ES" for both languages, no capability session active.  Capability
availability, registered state listeners and the two outbound callbacks are
the constructor-time parameters. -/
def initVE (ra sa : Bool) (ls : List Nat) (ht he : Bool) : VEState :=
  { sm := { currentState := .IDLE, listeners := ls }
    recognitionAvailable := ra
    synthesisAvailable := sa
    lastTranscript := ""
    lastTranscriptTime := 0
    recognitionLang := "es-ES"
    synthesisLang := "es-ES"
    hasTranscriptCallback := ht
    hasErrorCallback := he
    captureActive := false
    renderActive := false
    endPending := false }

/-- The events that drive the coordinator: the user-facing operations and
the capability callbacks. -/
inductive VEvent where
  | userStartListening
  | userStopListening
  | recResult (raw : String) (confidence now : Nat)
  | recError (error : String)
  | recEnd
  | userSpeak (text : String) (lang : Option String)
  | synthEnd
  | synthError (error : String)
  | userCancelSpeech
deriving DecidableEq, Repr

/-- One step of the coordinator.  Capability events are delivered only while
the corresponding session is live: a result or error event requires an
active capture (each of them ends audio capture; with `continuous = false`
the recognizer stops capturing once it has its single final result, and an
erroring session likewise stops capturing — its `onend` follows separately),
an end event requires a pending session end, and synthesis end/error events
require an active utterance. -/
def veStep (env : Env) (s : VEState) (e : VEvent) : VEState :=
  match e with
  | .userStartListening => (startListening env s).state
  | .userStopListening => (stopListening s).state
  | .recResult raw conf now =>
      if s.captureActive then
        (recognitionOnResult env { s with captureActive := false } raw conf now).state
      else s
  | .recError err =>
      if s.captureActive then
        (recognitionOnError env { s with captureActive := false } err).state
      else s
  | .recEnd =>
      if s.endPending then
        (recognitionOnEnd env { s with captureActive := false, endPending := false }).state
      else s
  | .userSpeak text lang => (speak env s text lang).state
  | .synthEnd =>
      if s.renderActive then (synthOnEnd env { s with renderActive := false }).state
      else s
  | .synthError err =>
      if s.renderActive then (synthOnError env { s with renderActive := false } err).state
      else s
  | .userCancelSpeech => (cancelSpeech s).state

/-- The coordinator states reachable from a freshly constructed engine. -/
inductive Reachable (env : Env) : VEState → Prop where
  | init (ra sa : Bool) (ls : List Nat) (ht he : Bool) :
      Reachable env (initVE ra sa ls ht he)
  | step {s : VEState} (e : VEvent) : Reachable env s → Reachable env (veStep env s e)

/-- Auxiliary invariant of reachable coordinator states: an active utterance
implies the phase is `SPEAKING` with capture quiesced, and active capture
implies the recognition capability exists. -/
def ReachInv (s : VEState) : Prop :=
  (s.renderActive = true → s.sm.currentState = Phase.SPEAKING ∧ s.captureActive = false)
  ∧ (s.captureActive = true → s.recognitionAvailable = true)

/-- A state manager with one listener, currently `LISTENING`. -/
def smL : SMState := ⟨Phase.LISTENING, [0]⟩

/-- A fresh state manager with one listener (session start). -/
def sm0 : SMState := ⟨Phase.IDLE, [0]⟩

/-- First committed transition of a concrete session: `IDLE → LISTENING`. -/
def run1 : TransitionResult := transition env0 sm0 "LISTENING"

/-- Second committed transition of that session: `LISTENING → IDLE`. -/
def run2 : TransitionResult := transition env0 run1.state "IDLE"

/-- Third committed transition of that session: `IDLE → LISTENING` again. -/
def run3 : TransitionResult := transition env0 run2.state "LISTENING"

/-- An engine in `LISTENING` whose last stored transcript is "hola" at
t = 0 ms (the spec's duplicate-filter scenario). -/
def holaState : VEState :=
  { initVE true true [0] true true with
      sm := ⟨Phase.LISTENING, [0]⟩
      lastTranscript := "hola"
      lastTranscriptTime := 0 }

/-!
## Helper lemmas
-/

lemma isSome_phaseOfString_of_mem {p : Phase} {t : String}
    (h : t ∈ TRANSITIONS p) : (phaseOfString t).isSome = true := by
  cases p <;> simp only [TRANSITIONS, List.mem_cons, List.not_mem_nil, or_false] at h
  · subst h; decide
  · rcases h with rfl | rfl <;> decide
  · rcases h with rfl | rfl <;> decide
  · subst h; decide

lemma transition_not_mem (env : Env) (s : SMState) (t : String)
    (h : t ∉ TRANSITIONS s.currentState) :
    ∃ msg, transition env s t = ⟨false, s, [Action.log "error" msg]⟩ := by
  have hc : (TRANSITIONS s.currentState).contains t = false := by
    simpa using h
  unfold transition
  cases hp : phaseOfString t with
  | none => exact ⟨_, rfl⟩
  | some p => rw [hc]; exact ⟨_, rfl⟩

lemma transition_mem (env : Env) (s : SMState) (t : String) {p : Phase}
    (hp : phaseOfString t = some p) (h : t ∈ TRANSITIONS s.currentState) :
    transition env s t =
      ⟨true, ⟨p, s.listeners⟩,
        Action.log "info" ("State: " ++ s.currentState.toStr ++ " → " ++ t) ::
          notifyListeners env s.listeners s.currentState p⟩ := by
  have hc : (TRANSITIONS s.currentState).contains t = true := by
    simpa using h
  unfold transition
  rw [hp, hc]
  rfl

lemma mem_of_transition_success {env : Env} {s : SMState} {t : String}
    (h : (transition env s t).success = true) : t ∈ TRANSITIONS s.currentState := by
  by_contra hm
  obtain ⟨msg, he⟩ := transition_not_mem env s t hm
  rw [he] at h
  cases h

lemma forceTransition_mem (env : Env) (s : SMState) (t : String) {p : Phase}
    (hp : phaseOfString t = some p) :
    forceTransition env s t =
      ⟨⟨p, s.listeners⟩,
        Action.log "warn" ("FORCED State: " ++ s.currentState.toStr ++ " → " ++ t) ::
          notifyListeners env s.listeners s.currentState p⟩ := by
  unfold forceTransition
  rw [hp]

lemma reset_eq (env : Env) (s : SMState) :
    reset env s =
      ⟨⟨Phase.IDLE, s.listeners⟩,
        Action.log "warn" ("FORCED State: " ++ s.currentState.toStr ++ " → " ++ "IDLE") ::
          notifyListeners env s.listeners s.currentState Phase.IDLE⟩ := by
  unfold reset
  exact forceTransition_mem env s "IDLE" rfl

lemma invokesOf_notifyListeners (env : Env) (l : List Nat) (p q : Phase) :
    invokesOf (notifyListeners env l p q) =
      l.map (fun cb => Action.invoke cb p q) := by
  induction l with
  | nil => rfl
  | cons cb rest ih =>
      cases hcb : env cb p q <;>
        simp [notifyListeners, invokesOf, Action.isInvoke, hcb] <;>
        simpa [notifyListeners, invokesOf] using ih

lemma invoke_mem_notifyListeners {env : Env} {l : List Nat} {p q : Phase}
    {cb : Nat} {p' q' : Phase}
    (h : Action.invoke cb p' q' ∈ notifyListeners env l p q) : cb ∈ l := by
  induction l with
  | nil => simp [notifyListeners] at h
  | cons c rest ih =>
      cases hc : env c p q <;>
        simp only [notifyListeners, List.flatMap_cons, hc, List.cons_append,
          List.nil_append, List.mem_cons, List.mem_append,
          List.mem_singleton] at h ih ⊢
      · rcases h with h | h
        · exact Or.inl (by injection h)
        · exact Or.inr (ih h)
      · rcases h with h | h | h
        · exact Or.inl (by injection h)
        · cases h
        · exact Or.inr (ih h)

lemma transition_commit (env : Env) (s : SMState) (t : String) {p : Phase}
    (hp : phaseOfString t = some p) (h : t ∈ TRANSITIONS s.currentState) :
    (transition env s t).success = true
    ∧ (transition env s t).state = ⟨p, s.listeners⟩ := by
  rw [transition_mem env s t hp h]
  exact ⟨rfl, rfl⟩

lemma recognitionOnResult_fields (env : Env) (s : VEState) (raw : String)
    (conf now : Nat) :
    (recognitionOnResult env s raw conf now).state.renderActive = s.renderActive
    ∧ (recognitionOnResult env s raw conf now).state.captureActive = s.captureActive
    ∧ (recognitionOnResult env s raw conf now).state.recognitionAvailable
        = s.recognitionAvailable := by
  simp only [recognitionOnResult]
  split
  · exact ⟨rfl, rfl, rfl⟩
  · split <;> exact ⟨rfl, rfl, rfl⟩

lemma recognitionOnError_fields (env : Env) (s : VEState) (err : String) :
    (recognitionOnError env s err).state.renderActive = s.renderActive
    ∧ (recognitionOnError env s err).state.captureActive = s.captureActive
    ∧ (recognitionOnError env s err).state.recognitionAvailable
        = s.recognitionAvailable
    ∧ (recognitionOnError env s err).state.sm.currentState = Phase.IDLE := by
  simp only [recognitionOnError, reset_eq]
  simp

lemma speak_started (env : Env) (s : VEState) (text : String) (lang : Option String)
    (hP : s.sm.currentState = Phase.PROCESSING) (hsa : s.synthesisAvailable = true) :
    (speak env s text lang).outcome = SpeakOutcome.started
    ∧ (speak env s text lang).state.sm.currentState = Phase.SPEAKING
    ∧ (speak env s text lang).state.sm.listeners = s.sm.listeners
    ∧ (speak env s text lang).state.renderActive = true
    ∧ (speak env s text lang).state.captureActive
        = (s.captureActive && !s.recognitionAvailable)
    ∧ (speak env s text lang).state.recognitionAvailable = s.recognitionAvailable := by
  have hP' : ¬ s.sm.currentState ≠ Phase.PROCESSING := by simp [hP]
  have hsa' : ¬ s.synthesisAvailable = false := by simp [hsa]
  cases hra : s.recognitionAvailable with
  | false =>
      have hcommit := transition_commit (p := Phase.SPEAKING) env
        ({ s with renderActive := false } : VEState).sm "SPEAKING" rfl
        (by rw [show ({ s with renderActive := false } : VEState).sm = s.sm from rfl, hP]
            decide)
      simp only [speak, if_neg hP', if_neg hsa', hra, Bool.false_eq_true, if_false,
        hcommit.1, hcommit.2, Bool.true_eq_false, Bool.not_false, Bool.and_true]
      simp
  | true =>
      have hcommit := transition_commit (p := Phase.SPEAKING) env
        ({ s with renderActive := false, captureActive := false } : VEState).sm
        "SPEAKING" rfl
        (by rw [show ({ s with renderActive := false, captureActive := false } :
              VEState).sm = s.sm from rfl, hP]
            decide)
      simp only [speak, if_neg hP', if_neg hsa', hra, if_true,
        hcommit.1, hcommit.2, Bool.true_eq_false, Bool.not_true, Bool.and_false]
      simp

lemma reachInv_step (env : Env) {s : VEState} (h : ReachInv s) (e : VEvent) :
    ReachInv (veStep env s e) := by
  obtain ⟨h1, h2⟩ := h
  cases e with
  | userStartListening =>
      show ReachInv (startListening env s).state
      simp only [startListening]
      split
      · exact ⟨h1, h2⟩
      · split
        · exact ⟨h1, h2⟩
        · rename_i hI hra
          simp only [ne_eq, Decidable.not_not] at hI
          replace hra : s.recognitionAvailable = true := by
            simpa using hra
          have hre : s.renderActive = false := by
            cases hre' : s.renderActive
            · rfl
            · have hsp := (h1 hre').1
              rw [hI] at hsp
              exact absurd hsp (by decide)
          split
          · constructor
            · intro hr
              simp [hre] at hr
            · intro hc
              exact h2 hc
          · split
            · constructor
              · intro hr
                simp [hre] at hr
              · intro _
                exact hra
            · constructor
              · intro hr
                simp [hre] at hr
              · intro _
                exact hra
  | userStopListening =>
      show ReachInv (stopListening s).state
      simp only [stopListening]
      split
      · rename_i hcond
        constructor
        · intro hr
          have hre : s.renderActive = false := by
            cases hre' : s.renderActive
            · rfl
            · have hsp := (h1 hre').1
              rw [hcond.2] at hsp
              exact absurd hsp (by decide)
          simp [hre] at hr
        · intro hc
          simp at hc
      · exact ⟨h1, h2⟩
  | recResult raw conf now =>
      simp only [veStep]
      split
      · rename_i hcap
        have hre : s.renderActive = false := by
          cases hre' : s.renderActive
          · rfl
          · exact absurd hcap (by rw [(h1 hre').2]; decide)
        obtain ⟨f1, f2, f3⟩ := recognitionOnResult_fields env
          { s with captureActive := false } raw conf now
        constructor
        · intro hr
          rw [f1] at hr
          simp [hre] at hr
        · intro hc
          rw [f2] at hc
          simp at hc
      · exact ⟨h1, h2⟩
  | recError err =>
      simp only [veStep]
      split
      · rename_i hcap
        have hre : s.renderActive = false := by
          cases hre' : s.renderActive
          · rfl
          · exact absurd hcap (by rw [(h1 hre').2]; decide)
        obtain ⟨f1, f2, f3, f4⟩ := recognitionOnError_fields env
          { s with captureActive := false } err
        constructor
        · intro hr
          rw [f1] at hr
          simp [hre] at hr
        · intro hc
          rw [f2] at hc
          simp at hc
      · exact ⟨h1, h2⟩
  | recEnd =>
      simp only [veStep]
      split
      · simp only [recognitionOnEnd]
        split
        · rename_i hL
          constructor
          · intro hr
            replace hr : s.renderActive = true := hr
            replace hL : s.sm.currentState = Phase.LISTENING := hL
            rw [(h1 hr).1] at hL
            exact absurd hL (by decide)
          · intro hc
            simp at hc
        · constructor
          · intro hr
            replace hr : s.renderActive = true := hr
            exact ⟨(h1 hr).1, rfl⟩
          · intro hc
            simp at hc
      · exact ⟨h1, h2⟩
  | userSpeak text lang =>
      show ReachInv (speak env s text lang).state
      by_cases hP : s.sm.currentState = Phase.PROCESSING
      · cases hsa : s.synthesisAvailable
        · have hstate : (speak env s text lang).state = s := by
            simp [speak, hP, hsa]
          rw [hstate]
          exact ⟨h1, h2⟩
        · obtain ⟨-, hsp, -, hr, hcap, hrec⟩ := speak_started env s text lang hP hsa
          constructor
          · intro _
            refine ⟨hsp, ?_⟩
            rw [hcap]
            cases hca : s.captureActive
            · simp
            · rw [h2 hca]
              simp
          · intro hc
            rw [hrec]
            rw [hcap] at hc
            cases hca : s.captureActive
            · rw [hca] at hc
              simp at hc
            · exact h2 hca
      · have hstate : (speak env s text lang).state = s := by
          simp [speak, hP]
        rw [hstate]
        exact ⟨h1, h2⟩
  | synthEnd =>
      simp only [veStep]
      split
      · simp only [synthOnEnd]
        constructor
        · intro hr
          simp at hr
        · intro hc
          replace hc : s.captureActive = true := hc
          exact h2 hc
      · exact ⟨h1, h2⟩
  | synthError err =>
      simp only [veStep]
      split
      · simp only [synthOnError, reset_eq]
        constructor
        · intro hr
          simp at hr
        · intro hc
          replace hc : s.captureActive = true := hc
          exact h2 hc
      · exact ⟨h1, h2⟩
  | userCancelSpeech =>
      show ReachInv (cancelSpeech s).state
      simp only [cancelSpeech]
      split
      · exact ⟨h1, h2⟩
      · exact ⟨h1, h2⟩


lemma reachable_reachInv (env : Env) {s : VEState} (h : Reachable env s) :
    ReachInv s := by
  induction h with
  | init ra sa ls ht he =>
      constructor
      · intro hr
        simp [initVE] at hr
      · intro hc
        simp [initVE] at hc
  | step e hs ih => exact reachInv_step env ih e

lemma invokesOf_cons_log (lv m : String) (l : List Action) :
    invokesOf (Action.log lv m :: l) = invokesOf l := by
  simp [invokesOf, Action.isInvoke]

/-!
## Claims
-/

/-- C1: for every current phase and every requested target,
`StateManager.transition` succeeds iff the target is in the fixed
transition-table entry for the current phase; on failure — unknown phase or
disallowed edge — the current phase is unchanged and no observer is invoked;
on success the current phase becomes the target and every observer is
notified. -/
theorem transition_request_spec (env : Env) (s : SMState) (t : String) :
    ((transition env s t).success = true ↔ t ∈ TRANSITIONS s.currentState)
    ∧ ((transition env s t).success = false →
        (transition env s t).state = s
        ∧ invokesOf (transition env s t).actions = [])
    ∧ ((transition env s t).success = true →
        phaseOfString t = some ((transition env s t).state.currentState)
        ∧ invokesOf (transition env s t).actions =
            s.listeners.map (fun cb =>
              Action.invoke cb s.currentState
                ((transition env s t).state.currentState))) := by
  by_cases hm : t ∈ TRANSITIONS s.currentState
  · obtain ⟨p, hp⟩ := Option.isSome_iff_exists.mp (isSome_phaseOfString_of_mem hm)
    have he := transition_mem env s t hp hm
    refine ⟨⟨fun _ => hm, fun _ => by rw [he]⟩, ?_, ?_⟩
    · intro hfail
      rw [he] at hfail
      cases hfail
    · intro _
      rw [he]
      exact ⟨hp, by rw [invokesOf_cons_log, invokesOf_notifyListeners]⟩
  · obtain ⟨msg, he⟩ := transition_not_mem env s t hm
    refine ⟨⟨?_, fun hmem => absurd hmem hm⟩, ?_, ?_⟩
    · intro hsucc
      rw [he] at hsucc
      cases hsucc
    · intro _
      rw [he]
      exact ⟨rfl, rfl⟩
    · intro hsucc
      rw [he] at hsucc
      cases hsucc

/-- C1 witness: the request `IDLE → LISTENING` on a fresh manager succeeds. -/
theorem transition_request_spec_witness :
    (transition env0 sm0 "LISTENING").success = true :=
  (transition_request_spec env0 sm0 "LISTENING").1.mpr (by decide)

/-- C9: on every committed transition every registered observer occurrence is
invoked exactly once, in registration order, with `(previousPhase, newPhase)`
— for every observer-behaviour heap, so a throwing observer never prevents a
later-registered observer from running — and the committed state and the
returned result are independent of observer behaviour, so a throwing
observer cannot change the already-committed phase. -/
theorem observer_notification_spec (env env' : Env) (l : List Nat) (p q : Phase)
    (s : SMState) (t : String) :
    invokesOf (notifyListeners env l p q)
        = l.map (fun cb => Action.invoke cb p q)
    ∧ (transition env s t).state = (transition env' s t).state
    ∧ (transition env s t).success = (transition env' s t).success := by
  refine ⟨invokesOf_notifyListeners env l p q, ?_, ?_⟩ <;>
    · unfold transition
      cases hp : phaseOfString t with
      | none => rfl
      | some pp =>
          by_cases hc : (TRANSITIONS s.currentState).contains t = true
          · simp only [if_pos hc]
          · simp only [if_neg hc]

/-- C10: `StateManager.removeListener` removes every registered occurrence of
the callback — afterwards it is never invoked on a subsequent committed
transition, validated or forced — keeps all other listeners in their original
relative order, and leaves the manager unchanged when the callback was never
registered. -/
theorem removeListener_spec (s : SMState) (cb : Nat) (env : Env) (t : String) :
    cb ∉ (removeListener s cb).listeners
    ∧ (removeListener s cb).listeners.Sublist s.listeners
    ∧ (∀ d, d ≠ cb →
        (removeListener s cb).listeners.count d = s.listeners.count d)
    ∧ (cb ∉ s.listeners → removeListener s cb = s)
    ∧ (∀ p q, Action.invoke cb p q ∉ (transition env (removeListener s cb) t).actions)
    ∧ (∀ p q,
        Action.invoke cb p q ∉ (forceTransition env (removeListener s cb) t).actions) := by
  refine ⟨?_, ?_, ?_, ?_, ?_, ?_⟩
  · simp [removeListener]
  · exact List.filter_sublist s.listeners
  · intro d hd
    simp only [removeListener]
    exact List.count_filter (bne_iff_ne.mpr hd)
  · intro h
    cases s with
    | mk c ls =>
        simp only [removeListener]
        congr 1
        refine List.filter_eq_self.mpr fun a ha => ?_
        exact bne_iff_ne.mpr fun e => h (e ▸ ha)
  · intro p q hmem
    by_cases hm : t ∈ TRANSITIONS (removeListener s cb).currentState
    · obtain ⟨pp, hp⟩ := Option.isSome_iff_exists.mp (isSome_phaseOfString_of_mem hm)
      rw [transition_mem env _ t hp hm] at hmem
      simp only [List.mem_cons] at hmem
      rcases hmem with h | h
      · exact Action.noConfusion h
      · have hcb := invoke_mem_notifyListeners h
        simp [removeListener] at hcb
    · obtain ⟨msg, he⟩ := transition_not_mem env _ t hm
      rw [he] at hmem
      simp at hmem
  · intro p q hmem
    cases hp : phaseOfString t with
    | none =>
        unfold forceTransition at hmem
        simp only [hp] at hmem
        simp at hmem
    | some pp =>
        rw [forceTransition_mem env _ t hp] at hmem
        simp only [List.mem_cons] at hmem
        rcases hmem with h | h
        · exact Action.noConfusion h
        · have hcb := invoke_mem_notifyListeners h
          simp [removeListener] at hcb

/-- C10 witness: removing callback `0` from `[0, 1, 0]` keeps the count of
callback `1`, and removing an unregistered callback changes nothing. -/
theorem removeListener_spec_witness :
    (removeListener ⟨Phase.IDLE, [0, 1, 0]⟩ 0).listeners.count 1
        = (⟨Phase.IDLE, [0, 1, 0]⟩ : SMState).listeners.count 1
    ∧ removeListener ⟨Phase.IDLE, [7]⟩ 3 = ⟨Phase.IDLE, [7]⟩ :=
  ⟨(removeListener_spec ⟨Phase.IDLE, [0, 1, 0]⟩ 0 env0 "IDLE").2.2.1 1 (by decide),
   (removeListener_spec ⟨Phase.IDLE, [7]⟩ 3 env0 "IDLE").2.2.2.1 (by decide)⟩

/-- C7 fails on the code: `notifyListeners` passes observers only
`(previousState, newState)` — a validated and a forced commit of the same
edge deliver identical data to the observer, so no forced flag is carried
and an observer cannot distinguish the two. -/
theorem forced_flag_counterexample :
    (transition env0 smL "IDLE").success = true
    ∧ invokesOf (transition env0 smL "IDLE").actions
        = invokesOf (forceTransition env0 smL "IDLE").actions
    ∧ invokesOf (transition env0 smL "IDLE").actions
        = [Action.invoke 0 Phase.LISTENING Phase.IDLE] :=
  ⟨by decide, by decide, by decide⟩

/-- C7 (amended): phase-change observer invocations carry exactly
`(previousPhase, newPhase)` and no forced flag; a validated commit and a
forced commit of the same edge are indistinguishable to observers and are
told apart only in the log stream (`info` "State: …" versus `warn`
"FORCED State: …"). -/
theorem forced_flag_amended (env : Env) (s : SMState) (t : String)
    (h : (transition env s t).success = true) :
    invokesOf (transition env s t).actions
        = invokesOf (forceTransition env s t).actions
    ∧ invokesOf (transition env s t).actions
        = s.listeners.map (fun cb =>
            Action.invoke cb s.currentState ((transition env s t).state.currentState))
    ∧ (transition env s t).actions.head?
        = some (Action.log "info"
            ("State: " ++ s.currentState.toStr ++ " → " ++ t))
    ∧ (forceTransition env s t).actions.head?
        = some (Action.log "warn"
            ("FORCED State: " ++ s.currentState.toStr ++ " → " ++ t)) := by
  have hm := mem_of_transition_success h
  obtain ⟨p, hp⟩ := Option.isSome_iff_exists.mp (isSome_phaseOfString_of_mem hm)
  rw [transition_mem env s t hp hm, forceTransition_mem env s t hp]
  refine ⟨rfl, ?_, rfl, rfl⟩
  rw [invokesOf_cons_log, invokesOf_notifyListeners]

/-- C7 witness: a concrete committed `PROCESSING → SPEAKING` edge. -/
theorem forced_flag_amended_witness :
    invokesOf (transition env0 ⟨Phase.PROCESSING, [5]⟩ "SPEAKING").actions
        = invokesOf (forceTransition env0 ⟨Phase.PROCESSING, [5]⟩ "SPEAKING").actions :=
  (forced_flag_amended env0 ⟨Phase.PROCESSING, [5]⟩ "SPEAKING" (by decide)).1

/-- C8 fails on the code: nothing assigns sequence numbers — the record of a
committed transition is the log line plus the observer invocations, and the
first and third commits of this concrete session produce identical records,
so no record-derived numbering is strictly increasing in commit order. -/
theorem sequence_number_counterexample :
    run1.success = true ∧ run2.success = true ∧ run3.success = true
    ∧ run1.actions = run3.actions
    ∧ ¬ ∃ f : List Action → Nat, f run1.actions < f run3.actions := by
  refine ⟨by decide, by decide, by decide, by decide, ?_⟩
  rintro ⟨f, hf⟩
  have h13 : run1.actions = run3.actions := by decide
  rw [h13] at hf
  exact lt_irrefl _ hf

/-- C8 (amended): committed transitions carry no sequence numbers; the
record of a commit — one log line plus the observer invocations in
registration order — depends only on the current phase, the listener list
and the target, not on how many transitions were committed before it. -/
theorem sequence_number_amended (env : Env) (s s' : SMState) (t : String)
    (h1 : s.currentState = s'.currentState) (h2 : s.listeners = s'.listeners) :
    transition env s t = transition env s' t
    ∧ ((transition env s t).success = true →
        (transition env s t).actions =
          Action.log "info" ("State: " ++ s.currentState.toStr ++ " → " ++ t) ::
            notifyListeners env s.listeners s.currentState
              ((transition env s t).state.currentState)) := by
  have hss : s = s' := by
    cases s
    cases s'
    cases h1
    cases h2
    rfl
  subst hss
  refine ⟨rfl, ?_⟩
  intro h
  have hm := mem_of_transition_success h
  obtain ⟨p, hp⟩ := Option.isSome_iff_exists.mp (isSome_phaseOfString_of_mem hm)
  rw [transition_mem env s t hp hm]

/-- C8 witness: the state after two commits equals a fresh manager, so the
third commit's record equals the first's. -/
theorem sequence_number_amended_witness :
    transition env0 run2.state "LISTENING" = transition env0 sm0 "LISTENING" :=
  (sequence_number_amended env0 run2.state sm0 "LISTENING"
    (by decide) (by decide)).1

lemma countP_errorCb_map_sm (l : List Action) :
    (l.map VAction.sm).countP VAction.isErrorCb = 0 := by
  induction l with
  | nil => rfl
  | cons a l ih => simp [VAction.isErrorCb, ih]

/-- C2: `VoiceEngine.speak` stops the capture capability before the
rendering capability is invoked; whenever it rejects — in particular when
the `PROCESSING → SPEAKING` transition is refused — rendering is never
invoked; and in every reachable coordinator state at most one of capture
and rendering is active. -/
theorem speak_mutual_exclusion (env : Env) :
    (∀ (s : VEState) (text : String) (lang : Option String),
        s.recognitionAvailable = true →
          stopBeforeStart (speak env s text lang).actions = true)
    ∧ (∀ (s : VEState) (text : String) (lang : Option String) (msg : String),
        (speak env s text lang).outcome = SpeakOutcome.rejected msg →
          (speak env s text lang).actions.any VAction.isStartSynth = false)
    ∧ (∀ s : VEState, Reachable env s →
        ¬(s.captureActive = true ∧ s.renderActive = true)) := by
  refine ⟨?_, ?_, ?_⟩
  · intro s text lang hra
    by_cases hP : s.sm.currentState = Phase.PROCESSING
    · by_cases hsa : s.synthesisAvailable = true
      · have hsa' : ¬ s.synthesisAvailable = false := by simp [hsa]
        have hP' : ¬ s.sm.currentState ≠ Phase.PROCESSING := by simp [hP]
        have hcommit := transition_commit (p := Phase.SPEAKING) env s.sm
          "SPEAKING" rfl (by rw [hP]; decide)
        cases hrend : s.renderActive <;>
          simp [speak, if_neg hP', if_neg hsa', hra, hrend, hcommit.1,
            stopBeforeStart, VAction.isStopRec, VAction.isStartSynth]
      · have hsa' : s.synthesisAvailable = false := by
          cases hb : s.synthesisAvailable
          · rfl
          · exact absurd hb hsa
        simp [speak, hP, hsa', stopBeforeStart, VAction.isStopRec,
          VAction.isStartSynth]
    · simp [speak, hP, stopBeforeStart, VAction.isStopRec, VAction.isStartSynth]
  · intro s text lang msg hrej
    by_cases hP : s.sm.currentState = Phase.PROCESSING
    · by_cases hsa : s.synthesisAvailable = true
      · obtain ⟨ho, -⟩ := speak_started env s text lang hP hsa
        rw [ho] at hrej
        exact SpeakOutcome.noConfusion hrej
      · have hsa' : s.synthesisAvailable = false := by
          cases hb : s.synthesisAvailable
          · rfl
          · exact absurd hb hsa
        simp [speak, hP, hsa', VAction.isStartSynth]
    · simp [speak, hP, VAction.isStartSynth]
  · intro s hs hcr
    obtain ⟨hc, hr⟩ := hcr
    have hinv := (reachable_reachInv env hs).1 hr
    rw [hinv.2] at hc
    cases hc

/-- C2 witness: a fresh coordinator satisfies the statement's hypotheses at
concrete inputs. -/
theorem speak_mutual_exclusion_witness :
    stopBeforeStart (speak env0 (initVE true true [] true true) "x" none).actions
        = true
    ∧ (speak env0 (initVE true true [] true true) "x" none).actions.any
        VAction.isStartSynth = false
    ∧ ¬((initVE true true [] true true).captureActive = true
        ∧ (initVE true true [] true true).renderActive = true) :=
  ⟨(speak_mutual_exclusion env0).1 (initVE true true [] true true) "x" none rfl,
   (speak_mutual_exclusion env0).2.1 (initVE true true [] true true) "x" none
     "Invalid state for speaking" rfl,
   (speak_mutual_exclusion env0).2.2 (initVE true true [] true true)
     (Reachable.init true true [] true true)⟩

/-- C3: invoking `VoiceEngine.speak` from any phase other than `PROCESSING`
rejects with the not-processing error, never invokes the rendering
capability, and leaves the engine state — in particular the current phase —
unchanged. -/
theorem speak_requires_processing (env : Env) (s : VEState) (text : String)
    (lang : Option String) (h : s.sm.currentState ≠ Phase.PROCESSING) :
    (speak env s text lang).outcome
        = SpeakOutcome.rejected "Invalid state for speaking"
    ∧ (speak env s text lang).state = s
    ∧ (speak env s text lang).actions.any VAction.isStartSynth = false := by
  simp [speak, h, VAction.isStartSynth]

/-- C3 witness: speaking while `LISTENING` (before any transcript) rejects
and leaves the engine unchanged. -/
theorem speak_requires_processing_witness :
    (speak env0 holaState "Muy bien" none).state = holaState :=
  (speak_requires_processing env0 holaState "Muy bien" none (by decide)).2.1

/-- C4: a transcript whose trimmed text equals the last stored transcript
and which arrives less than 2000 ms after it is dropped — the transcript
callback is not invoked, no observer is notified, and the engine state (in
particular the phase) is unchanged; with a gap of 2000 ms or more the same
text is accepted — it is stored and, from `LISTENING`, the phase moves to
`PROCESSING` and the transcript callback is delivered.  Concretely, after
"hola" at t = 0, "hola" at t = 1500 ms is dropped while "hola" at
t = 2500 ms is accepted. -/
theorem duplicate_filter_spec (env : Env) (s : VEState) (raw : String)
    (conf now : Nat) :
    (jsTrim raw = s.lastTranscript → now - s.lastTranscriptTime < 2000 →
        (recognitionOnResult env s raw conf now).state = s
        ∧ (recognitionOnResult env s raw conf now).actions.any
            VAction.isTranscriptCb = false
        ∧ (recognitionOnResult env s raw conf now).actions.any
            VAction.isSmInvoke = false)
    ∧ (2000 ≤ now - s.lastTranscriptTime →
        (recognitionOnResult env s raw conf now).state.lastTranscript = jsTrim raw
        ∧ (recognitionOnResult env s raw conf now).state.lastTranscriptTime = now
        ∧ (s.sm.currentState = Phase.LISTENING →
            (recognitionOnResult env s raw conf now).state.sm.currentState
                = Phase.PROCESSING
            ∧ (s.hasTranscriptCallback = true →
                VAction.transcriptCallback (jsTrim raw) conf
                  ∈ (recognitionOnResult env s raw conf now).actions)))
    ∧ (recognitionOnResult env0 holaState "hola" conf 1500).state = holaState
    ∧ (recognitionOnResult env0 holaState "hola" conf 2500).state.sm.currentState
        = Phase.PROCESSING
    ∧ VAction.transcriptCallback "hola" conf
        ∈ (recognitionOnResult env0 holaState "hola" conf 2500).actions := by
  refine ⟨?_, ?_, ?_, ?_, ?_⟩
  · intro h1 h2
    have hcond : jsTrim raw = s.lastTranscript ∧ now - s.lastTranscriptTime < 2000 :=
      ⟨h1, h2⟩
    simp only [recognitionOnResult, if_pos hcond]
    simp [VAction.isTranscriptCb, VAction.isSmInvoke]
  · intro hge
    have hcond : ¬(jsTrim raw = s.lastTranscript ∧ now - s.lastTranscriptTime < 2000) :=
      fun hh => absurd hh.2 (not_lt.mpr hge)
    simp only [recognitionOnResult, if_neg hcond]
    by_cases hL : s.sm.currentState = Phase.LISTENING
    · rw [if_pos hL]
      have hc := transition_commit (p := Phase.PROCESSING) env s.sm
        "PROCESSING" rfl (by rw [hL]; decide)
      refine ⟨rfl, rfl, fun _ => ⟨?_, fun ht => ?_⟩⟩
      · rw [hc.2]
      · simp [ht]
    · rw [if_neg hL]
      exact ⟨rfl, rfl, fun hLL => absurd hLL hL⟩
  · rfl
  · rfl
  · have hact : (recognitionOnResult env0 holaState "hola" conf 2500).actions =
        [VAction.vlog "info" ("Transcript: \"" ++ "hola" ++ "\""),
         VAction.sm (Action.log "info"
           ("State: " ++ Phase.LISTENING.toStr ++ " → " ++ "PROCESSING")),
         VAction.sm (Action.invoke 0 Phase.LISTENING Phase.PROCESSING),
         VAction.transcriptCallback "hola" conf] := rfl
    rw [hact]
    simp

/-- C4 witness: the concrete "hola" scenario discharges both debounce
hypotheses. -/
theorem duplicate_filter_spec_witness :
    (recognitionOnResult env0 holaState "hola" 9 1500).actions.any
        VAction.isTranscriptCb = false
    ∧ (recognitionOnResult env0 holaState "hola" 9 2500).state.lastTranscriptTime
        = 2500 :=
  ⟨((duplicate_filter_spec env0 holaState "hola" 9 1500).1
      (by decide) (by decide)).2.1,
   ((duplicate_filter_spec env0 holaState "hola" 9 2500).2.1 (by decide)).2.1⟩

/-- C5: a capture error while `LISTENING` — `no-speech` invokes no error
callback and the session returns (forced) to `IDLE`; `audio-capture` and
`not-allowed` invoke the registered error callback exactly once with the
corresponding message and force the phase to `IDLE`, emitting the forced
log line. -/
theorem capture_error_spec (env : Env) (s : VEState)
    (h : s.sm.currentState = Phase.LISTENING) :
    ((recognitionOnError env s "no-speech").actions.countP VAction.isErrorCb = 0
      ∧ (recognitionOnError env s "no-speech").state.sm.currentState = Phase.IDLE)
    ∧ (s.hasErrorCallback = true →
        (recognitionOnError env s "audio-capture").actions.countP
            VAction.isErrorCb = 1
        ∧ VAction.errorCallback "No microphone detected. Please check your device."
            ∈ (recognitionOnError env s "audio-capture").actions
        ∧ (recognitionOnError env s "audio-capture").state.sm.currentState
            = Phase.IDLE
        ∧ VAction.sm (Action.log "warn" "FORCED State: LISTENING → IDLE")
            ∈ (recognitionOnError env s "audio-capture").actions)
    ∧ (s.hasErrorCallback = true →
        (recognitionOnError env s "not-allowed").actions.countP
            VAction.isErrorCb = 1
        ∧ VAction.errorCallback
            "Microphone access denied. Please allow microphone access."
            ∈ (recognitionOnError env s "not-allowed").actions
        ∧ (recognitionOnError env s "not-allowed").state.sm.currentState
            = Phase.IDLE
        ∧ VAction.sm (Action.log "warn" "FORCED State: LISTENING → IDLE")
            ∈ (recognitionOnError env s "not-allowed").actions) := by
  refine ⟨⟨?_, ?_⟩, fun he => ⟨?_, ?_, ?_, ?_⟩, fun he => ⟨?_, ?_, ?_, ?_⟩⟩ <;>
    simp [recognitionOnError, reset_eq, h, Phase.toStr, VAction.isErrorCb,
      countP_errorCb_map_sm, *]

/-- C5 witness: a `not-allowed` error in the concrete `LISTENING` engine
invokes the error callback exactly once. -/
theorem capture_error_spec_witness :
    (recognitionOnError env0 holaState "not-allowed").actions.countP
        VAction.isErrorCb = 1 :=
  ((capture_error_spec env0 holaState (by decide)).2.2 rfl).1

/-- C6: `VoiceEngine.startListening` from any non-`IDLE` phase fails (the
not-idle failure path), and from `IDLE` while capture is unavailable fails
(the capture-unavailable failure path, a distinct typed outcome); in both
cases the engine state — in particular the phase — is unchanged and the
capture capability is not started. -/
theorem startTurn_preconditions (env : Env) (s : VEState) :
    (s.sm.currentState ≠ Phase.IDLE →
        (startListening env s).success = false
        ∧ (startListening env s).state = s
        ∧ (startListening env s).actions
            = [VAction.vlog "warn" "Cannot start listening - not in IDLE state"]
        ∧ (startListening env s).actions.any VAction.isStartRec = false)
    ∧ (s.sm.currentState = Phase.IDLE → s.recognitionAvailable = false →
        (startListening env s).success = false
        ∧ (startListening env s).state = s
        ∧ (startListening env s).actions.head?
            = some (VAction.vlog "error" "Speech Recognition not available")
        ∧ (startListening env s).actions.any VAction.isStartRec = false) := by
  constructor
  · intro h
    simp [startListening, h, VAction.isStartRec]
  · intro hI h
    cases hhe : s.hasErrorCallback <;>
      simp [startListening, hI, h, hhe, VAction.isStartRec]

/-- C6 witness: start from `LISTENING` fails; start without the recognition
capability leaves the fresh engine unchanged. -/
theorem startTurn_preconditions_witness :
    (startListening env0 holaState).success = false
    ∧ (startListening env0 (initVE false true [] true true)).state
        = initVE false true [] true true :=
  ⟨((startTurn_preconditions env0 holaState).1 (by decide)).1,
   ((startTurn_preconditions env0 (initVE false true [] true true)).2
      rfl rfl).2.1⟩

end Tutor
